import Mathlib

/-!
# Stick-figure movement: the `Foo` entity and the `LTexture` wrapper

A shallow embedding of `src/main.cpp`.

* C++ `int` is embedded as `Int`.  Signed overflow is undefined behaviour in
  C++, so every defined execution of the program agrees with the unbounded
  arithmetic used here.
* `frame / 6` on `int` truncates toward zero: `Int.tdiv`.
* A pointer into `spriteClips` is embedded as the index of the element it
  points to; `none` stands for a pointer that addresses no element of the
  array (unset, or computed from an index outside `0..3`).
* Calls into SDL that act on the outside world are recorded as a list of
  `SdlCall`s, in program order.  What SDL answers (the decoded surface, the
  created texture) is an argument of the embedded function.
-/

namespace StickFigure

/-! ## Constants -/

/-- Screen width, `main.cpp` line 8. -/
def SCREEN_WIDTH : Int := 640

/-- Screen height, `main.cpp` line 9. -/
def SCREEN_HEIGHT : Int := 480

/-- Width of the foo, `main.cpp` line 94. -/
def FOO_WIDTH : Int := 64

/-- Height of the foo, `main.cpp` line 95. -/
def FOO_HEIGHT : Int := 205

/-- Velocity added or removed per key event, `main.cpp` line 98. -/
def FOO_VEL : Int := 6

/-- Number of cells of the walking animation, `main.cpp` line 100. -/
abbrev WALKING_ANIMATION_FRAMES : Nat := 4

/-- Event type of a key press; the value is the one of SDL2 `SDL_events.h`. -/
def SDL_KEYDOWN : Nat := 0x300

/-- Event type of a key release; the value is the one of SDL2 `SDL_events.h`. -/
def SDL_KEYUP : Nat := 0x301

/-- Key code of the right arrow; the value is the one of SDL2 `SDL_keycode.h`. -/
def SDLK_RIGHT : Int := 0x4000004F

/-- Key code of the left arrow; the value is the one of SDL2 `SDL_keycode.h`. -/
def SDLK_LEFT : Int := 0x40000050

/-! ## Data model -/

/-- The SDL rectangle: four `int` fields. -/
structure SDL_Rect where
  x : Int
  y : Int
  w : Int
  h : Int
  deriving DecidableEq, Repr

/-- The part of a decoded `SDL_Surface` that the program reads. -/
structure SDL_Surface where
  w : Int
  h : Int
  deriving DecidableEq, Repr

/-- The flip enumeration of SDL. -/
inductive SDL_RendererFlip where
  | SDL_FLIP_NONE
  | SDL_FLIP_HORIZONTAL
  | SDL_FLIP_VERTICAL
  deriving DecidableEq, Repr

open SDL_RendererFlip

/-- The fields of an `SDL_Event` that `Foo::handleEvent` reads:
`e.type`, `e.key.repeat` and `e.key.keysym.sym`. -/
structure SDL_Event where
  type : Nat
  keyRepeat : Nat
  keySym : Int
  deriving DecidableEq, Repr

/-- The calls into SDL made by the texture wrapper, as they appear in the source. -/
inductive SdlCall where
  | SDL_DestroyTexture (texture : Nat)
  | IMG_Load (path : String)
  | SDL_SetColorKey
  | SDL_CreateTextureFromSurface
  | SDL_FreeSurface
  deriving DecidableEq, Repr

/-- The private fields of class `LTexture`, lines 48-54.  `mTexture = none` is the
null pointer, `some t` a pointer to the texture `t`. -/
structure LTexture where
  mTexture : Option Nat
  mWidth : Int
  mHeight : Int
  deriving DecidableEq, Repr

/-- The fields of class `Foo`, lines 102 and 118-132. -/
structure Foo where
  spriteClips : Fin WALKING_ANIMATION_FRAMES → SDL_Rect
  mPosX : Int
  mPosY : Int
  mVelX : Int
  mVelY : Int
  currentClip : Option Nat
  flipType : SDL_RendererFlip
  frame : Int
  isMoving : Bool

/-- The global objects that `loadMedia` works on, lines 141-145. -/
structure Globals where
  gFooTexture : LTexture
  gFoo : Foo

/-! ## `LTexture` -/

/-- The constructor `LTexture::LTexture`, lines 217-223 (a method cannot bear the name of
its structure here, hence `ctor`). -/
def LTexture.ctor : LTexture :=
  { mTexture := none, mWidth := 0, mHeight := 0 }

/-- The method `LTexture::free`, lines 309-319: the new fields and the SDL calls made. -/
def LTexture.free (t : LTexture) : LTexture × List SdlCall :=
  match t.mTexture with
  | some tex =>
      ({ t with mTexture := none, mWidth := 0, mHeight := 0 }, [SdlCall.SDL_DestroyTexture tex])
  | none => (t, [])

/-- What `LTexture::loadFromFile` yields: the returned flag, the fields afterwards and
the SDL calls made, in order. -/
structure LoadResult where
  ok : Bool
  tex : LTexture
  calls : List SdlCall
  deriving DecidableEq, Repr

/-- The method `LTexture::loadFromFile`, lines 231-270.  `loadedSurface` is what
`IMG_Load` answers and `created` what `SDL_CreateTextureFromSurface` answers (`none`
is the null pointer in both). -/
def LTexture.loadFromFile (t : LTexture) (path : String)
    (loadedSurface : Option SDL_Surface) (created : Option Nat) : LoadResult :=
  let (t0, c0) := t.free
  let c1 := c0 ++ [SdlCall.IMG_Load path]
  match loadedSurface with
  | none =>
      let t1 := { t0 with mTexture := none }
      { ok := t1.mTexture.isSome, tex := t1, calls := c1 }
  | some surface =>
      let c2 := c1 ++ [SdlCall.SDL_SetColorKey, SdlCall.SDL_CreateTextureFromSurface]
      let newTexture := created
      let t1 :=
        match newTexture with
        | none => t0
        | some _ => { t0 with mWidth := surface.w, mHeight := surface.h }
      let c3 := c2 ++ [SdlCall.SDL_FreeSurface]
      let t2 := { t1 with mTexture := newTexture }
      { ok := t2.mTexture.isSome, tex := t2, calls := c3 }

/-- The accessor `LTexture::getWidth`, lines 355-358. -/
def LTexture.getWidth (t : LTexture) : Int := t.mWidth

/-- The accessor `LTexture::getHeight`, lines 360-363. -/
def LTexture.getHeight (t : LTexture) : Int := t.mHeight

/-- One call a client can make on a texture: a load, with what SDL answers, or a release. -/
inductive TexOp where
  | loadFromFile (path : String) (loadedSurface : Option SDL_Surface) (created : Option Nat)
  | free

/-- The fields after one call. -/
def LTexture.apply (t : LTexture) : TexOp → LTexture
  | TexOp.loadFromFile path loadedSurface created => (t.loadFromFile path loadedSurface created).tex
  | TexOp.free => t.free.1

/-- The fields after a sequence of calls, first call first. -/
def LTexture.run (t : LTexture) (ops : List TexOp) : LTexture :=
  ops.foldl LTexture.apply t

/-! ## `Foo` -/

/-- The constructor `Foo::Foo` (named `ctor` here), lines 366-379, run on the storage
`mem`: it assigns seven fields and leaves `spriteClips` and `currentClip` as they are. -/
def Foo.ctor (mem : Foo) : Foo :=
  { mem with
    mPosX := (SCREEN_WIDTH - FOO_WIDTH).tdiv 2
    mPosY := SCREEN_HEIGHT - FOO_HEIGHT
    mVelX := 0
    mVelY := 0
    flipType := SDL_FLIP_NONE
    frame := 0
    isMoving := false }

/-- The method `Foo::handleEvent`, lines 381-416. -/
def Foo.handleEvent (s : Foo) (e : SDL_Event) : Foo :=
  if e.type = SDL_KEYDOWN ∧ e.keyRepeat = 0 then
    if e.keySym = SDLK_LEFT then
      { s with mVelX := s.mVelX - FOO_VEL, isMoving := true, flipType := SDL_FLIP_NONE }
    else if e.keySym = SDLK_RIGHT then
      { s with mVelX := s.mVelX + FOO_VEL, isMoving := true, flipType := SDL_FLIP_HORIZONTAL }
    else s
  else if e.type = SDL_KEYUP ∧ e.keyRepeat = 0 then
    if e.keySym = SDLK_LEFT then
      { s with mVelX := s.mVelX + FOO_VEL, isMoving := false }
    else if e.keySym = SDLK_RIGHT then
      { s with mVelX := s.mVelX - FOO_VEL, isMoving := false }
    else s
  else s

/-- The method `Foo::move`, lines 418-439. -/
def Foo.move (s : Foo) : Foo :=
  let s1 := { s with mPosX := s.mPosX + s.mVelX }
  let s2 :=
    if s1.mPosX < 0 ∨ s1.mPosX + FOO_WIDTH > SCREEN_WIDTH then
      { s1 with mPosX := s1.mPosX - s1.mVelX }
    else s1
  let s3 := { s2 with mPosY := s2.mPosY + s2.mVelY }
  if s3.mPosY < 0 ∨ s3.mPosY + FOO_HEIGHT > SCREEN_HEIGHT then
    { s3 with mPosY := s3.mPosY - s3.mVelY }
  else s3

/-- The expression `&spriteClips[i]`: the element addressed, `none` when `i` is not an
index of the array. -/
def spriteClipPtr (i : Int) : Option Nat :=
  if 0 ≤ i ∧ i < (WALKING_ANIMATION_FRAMES : Int) then some i.toNat else none

/-- The method `Foo::animate`, lines 441-458. -/
def Foo.animate (s : Foo) : Foo :=
  if s.isMoving then
    let s1 := { s with currentClip := spriteClipPtr (s.frame.tdiv 6) }
    let s2 := { s1 with frame := s1.frame + 1 }
    if s2.frame.tdiv 6 ≥ (WALKING_ANIMATION_FRAMES : Int) then
      let s3 := { s2 with frame := 0 }
      { s3 with currentClip := spriteClipPtr s3.frame }
    else s2
  else
    let s1 := { s with frame := 0 }
    { s1 with currentClip := spriteClipPtr s1.frame }

/-- One call the main loop makes on the foo, lines 191-196. -/
inductive Action where
  | handleEvent (e : SDL_Event)
  | move
  | animate

/-- Whether the call is one of the two per-frame steps, `move` or `animate`. -/
def Action.isTick : Action → Bool
  | Action.handleEvent _ => false
  | Action.move => true
  | Action.animate => true

/-- The foo after one call. -/
def Foo.step (s : Foo) : Action → Foo
  | Action.handleEvent e => s.handleEvent e
  | Action.move => s.move
  | Action.animate => s.animate

/-- The foo after a sequence of calls, first call first. -/
def Foo.run (s : Foo) (acts : List Action) : Foo :=
  acts.foldl Foo.step s

/-! ## `loadMedia` -/

/-- The four assignments to the fields of `gFoo.spriteClips[i]`. -/
def Foo.setClip (s : Foo) (i : Fin WALKING_ANIMATION_FRAMES) (r : SDL_Rect) : Foo :=
  { s with spriteClips := Function.update s.spriteClips i r }

/-- The function `loadMedia`, lines 520-556: the returned flag and the globals
afterwards.  `loadedSurface` and `created` are what SDL answers inside
`gFooTexture.loadFromFile("foo.png")`. -/
def loadMedia (g : Globals) (loadedSurface : Option SDL_Surface) (created : Option Nat) :
    Bool × Globals :=
  let r := g.gFooTexture.loadFromFile "foo.png" loadedSurface created
  let g1 := { g with gFooTexture := r.tex }
  if !r.ok then
    (false, g1)
  else
    let f0 := g1.gFoo.setClip 0 { x := 0, y := 0, w := 64, h := 205 }
    let f1 := f0.setClip 1 { x := 64, y := 0, w := 64, h := 205 }
    let f2 := f1.setClip 2 { x := 128, y := 0, w := 64, h := 205 }
    let f3 := f2.setClip 3 { x := 196, y := 0, w := 64, h := 205 }
    (true, { g1 with gFoo := f3 })

/-! ## Concrete states used in the examples -/

/-- Storage of static duration before construction: all zero. -/
def zeroFoo : Foo :=
  { spriteClips := fun _ => { x := 0, y := 0, w := 0, h := 0 }
    mPosX := 0, mPosY := 0, mVelX := 0, mVelY := 0
    currentClip := none, flipType := SDL_FLIP_NONE, frame := 0, isMoving := false }

/-- The global `gFoo` once its constructor has run. -/
def gFoo0 : Foo := Foo.ctor zeroFoo

/-- The global `gFoo` with the movement flag set and the frame counter at zero. -/
def walkingFoo : Foo := { gFoo0 with isMoving := true }

/-- The globals at program start. -/
def globals0 : Globals := { gFooTexture := LTexture.ctor, gFoo := gFoo0 }

/-- A non-repeat key press of `sym`. -/
def keyDown (sym : Int) : SDL_Event := { type := SDL_KEYDOWN, keyRepeat := 0, keySym := sym }

/-- A non-repeat key release of `sym`. -/
def keyUp (sym : Int) : SDL_Event := { type := SDL_KEYUP, keyRepeat := 0, keySym := sym }

/-- The position is on the screen: the invariant of the data model. -/
def Foo.onScreen (s : Foo) : Prop :=
  0 ≤ s.mPosX ∧ s.mPosX ≤ SCREEN_WIDTH - FOO_WIDTH ∧
    0 ≤ s.mPosY ∧ s.mPosY ≤ SCREEN_HEIGHT - FOO_HEIGHT

instance (s : Foo) : Decidable s.onScreen := by
  unfold Foo.onScreen; infer_instance

/-- Whenever the texture pointer is null, both dimensions are zero. -/
def LTexture.dimsZeroWhenNull (t : LTexture) : Prop :=
  t.mTexture = none → t.mWidth = 0 ∧ t.mHeight = 0

/-! ## Helper lemmas: `move` -/

theorem move_eq (s : Foo) :
    s.move =
      { s with
        mPosX := if 0 ≤ s.mPosX + s.mVelX ∧ s.mPosX + s.mVelX ≤ 640 - 64
                 then s.mPosX + s.mVelX else s.mPosX
        mPosY := if 0 ≤ s.mPosY + s.mVelY ∧ s.mPosY + s.mVelY ≤ 480 - 205
                 then s.mPosY + s.mVelY else s.mPosY } := by
  cases s with
  | mk clips x y vx vy clip flip frame moving =>
    have ex : (if x + vx < 0 ∨ x + vx + 64 > 640 then x + vx - vx else x + vx)
        = (if 0 ≤ x + vx ∧ x + vx ≤ 640 - 64 then x + vx else x) := by
      split_ifs <;> omega
    have ey : (if y + vy < 0 ∨ y + vy + 205 > 480 then y + vy - vy else y + vy)
        = (if 0 ≤ y + vy ∧ y + vy ≤ 480 - 205 then y + vy else y) := by
      split_ifs <;> omega
    simp only [Foo.move, FOO_WIDTH, FOO_HEIGHT, SCREEN_WIDTH, SCREEN_HEIGHT]
    rw [← ex, ← ey]
    by_cases hx : x + vx < 0 ∨ x + vx + 64 > 640 <;>
    by_cases hy : y + vy < 0 ∨ y + vy + 205 > 480 <;>
    simp only [hx, hy, if_true, if_false]

theorem move_onScreen (s : Foo) (h : s.onScreen) : s.move.onScreen := by
  rw [move_eq]
  simp only [Foo.onScreen, SCREEN_WIDTH, SCREEN_HEIGHT, FOO_WIDTH, FOO_HEIGHT] at h ⊢
  obtain ⟨h1, h2, h3, h4⟩ := h
  refine ⟨?_, ?_, ?_, ?_⟩
  · split <;> omega
  · split <;> omega
  · split <;> omega
  · split <;> omega

/-! ## Helper lemmas: `animate` -/

theorem spriteClipPtr_zero : spriteClipPtr 0 = some 0 := by decide

theorem spriteClipPtr_tdiv (k : Nat) (h : k < 24) :
    spriteClipPtr ((k : Int).tdiv 6) = some (k / 6) := by
  have e : (k : Int).tdiv 6 = ((k / 6 : Nat) : Int) := by
    rw [Int.tdiv_eq_ediv (by omega) (by omega)]
    norm_cast
  have hlt : k / 6 < 4 := by omega
  rw [e]
  unfold spriteClipPtr
  rw [if_pos]
  · exact congrArg some (Int.toNat_ofNat _)
  · constructor
    · omega
    · exact_mod_cast hlt

theorem tdiv_six_ge_iff (f : Int) (h : 0 ≤ f) :
    f.tdiv 6 ≥ (WALKING_ANIMATION_FRAMES : Int) ↔ 24 ≤ f := by
  rw [Int.tdiv_eq_ediv h (by omega)]
  simp only [WALKING_ANIMATION_FRAMES, Nat.cast_ofNat]
  omega

theorem animate_moving (s : Foo) (hm : s.isMoving = true) (hf : 0 ≤ s.frame) :
    s.animate =
      if 23 ≤ s.frame then { s with frame := 0, currentClip := some 0 }
      else { s with frame := s.frame + 1, currentClip := spriteClipPtr (s.frame.tdiv 6) } := by
  cases s with
  | mk clips x y vx vy clip flip frame moving =>
    simp only at hm hf
    subst hm
    have hiff := tdiv_six_ge_iff (frame + 1) (by omega)
    by_cases h : 23 ≤ frame
    · have h2 : (frame + 1).tdiv 6 ≥ (WALKING_ANIMATION_FRAMES : Int) := hiff.mpr (by omega)
      simp only [Foo.animate, if_true, h, h2, spriteClipPtr_zero]
    · have h2 : ¬ (frame + 1).tdiv 6 ≥ (WALKING_ANIMATION_FRAMES : Int) := by
        intro hc
        have := hiff.mp hc
        omega
      simp only [Foo.animate, if_true, h, h2, if_false]

theorem animate_resting (s : Foo) (hm : s.isMoving = false) :
    s.animate = { s with frame := 0, currentClip := some 0 } := by
  cases s with
  | mk clips x y vx vy clip flip frame moving =>
    simp only at hm
    subst hm
    simp [Foo.animate, spriteClipPtr_zero]

/-- While the flag stays set, the first 23 calls count the frames up from zero and select
cell `(k - 1) / 6` at the `k`-th call. -/
theorem animate_iterate (s : Foo) (hm : s.isMoving = true) (hf : s.frame = 0) (k : Nat)
    (hk : k ≤ 23) :
    Foo.animate^[k] s =
      { s with frame := (k : Int)
               currentClip := if k = 0 then s.currentClip else some ((k - 1) / 6) } := by
  obtain ⟨clips, x, y, vx, vy, clip, flip, frame, moving⟩ := s
  simp only at hm hf
  subst hm hf
  induction k with
  | zero => simp
  | succ n ih =>
    rw [Function.iterate_succ_apply', ih (by omega)]
    have step := animate_moving
      (Foo.mk clips x y vx vy (if n = 0 then clip else some ((n - 1) / 6)) flip (n : Int) true)
      rfl (by simp)
    have hn : ¬ (23 : Int) ≤ (n : Int) := by omega
    simp only [hn, if_false, spriteClipPtr_tdiv n (by omega)] at step
    rw [step]
    simp

/-! ## Helper lemmas: fields that a method leaves alone -/

theorem keydown_ne_keyup : SDL_KEYDOWN ≠ SDL_KEYUP := by decide

theorem left_ne_right : SDLK_LEFT ≠ SDLK_RIGHT := by decide

theorem handleEvent_keeps (s : Foo) (e : SDL_Event) :
    (s.handleEvent e).mPosX = s.mPosX ∧ (s.handleEvent e).mPosY = s.mPosY ∧
      (s.handleEvent e).frame = s.frame ∧ (s.handleEvent e).mVelY = s.mVelY ∧
      (s.handleEvent e).currentClip = s.currentClip ∧
      (s.handleEvent e).spriteClips = s.spriteClips := by
  unfold Foo.handleEvent
  split_ifs <;> exact ⟨rfl, rfl, rfl, rfl, rfl, rfl⟩

theorem handleEvent_keyup_flip (s : Foo) (e : SDL_Event) (hup : e.type = SDL_KEYUP) :
    (s.handleEvent e).flipType = s.flipType := by
  have hne : ¬ (e.type = SDL_KEYDOWN ∧ e.keyRepeat = 0) := by
    rintro ⟨h, -⟩
    exact keydown_ne_keyup (h.symm.trans hup)
  unfold Foo.handleEvent
  rw [if_neg hne]
  split_ifs <;> rfl

theorem move_keeps (s : Foo) :
    s.move.flipType = s.flipType ∧ s.move.frame = s.frame ∧ s.move.isMoving = s.isMoving ∧
      s.move.mVelX = s.mVelX ∧ s.move.mVelY = s.mVelY ∧ s.move.currentClip = s.currentClip ∧
      s.move.spriteClips = s.spriteClips := by
  rw [move_eq]
  exact ⟨rfl, rfl, rfl, rfl, rfl, rfl, rfl⟩

theorem animate_keeps (s : Foo) :
    s.animate.flipType = s.flipType ∧ s.animate.mPosX = s.mPosX ∧ s.animate.mPosY = s.mPosY ∧
      s.animate.isMoving = s.isMoving ∧ s.animate.mVelX = s.mVelX ∧
      s.animate.mVelY = s.mVelY ∧ s.animate.spriteClips = s.spriteClips := by
  simp only [Foo.animate]
  split_ifs <;> exact ⟨rfl, rfl, rfl, rfl, rfl, rfl, rfl⟩

/-- A property that every call preserves holds after any sequence of calls. -/
theorem run_preserves (P : Foo → Prop) (hstep : ∀ s a, P s → P (s.step a)) (s : Foo)
    (h : P s) (acts : List Action) : P (s.run acts) := by
  induction acts generalizing s with
  | nil => exact h
  | cons a rest ih => exact ih (s.step a) (hstep s a h)

theorem step_onScreen (s : Foo) (a : Action) (h : s.onScreen) : (s.step a).onScreen := by
  cases a with
  | handleEvent e =>
    obtain ⟨hx, hy, -⟩ := handleEvent_keeps s e
    simp only [Foo.step, Foo.onScreen, hx, hy]
    exact h
  | move => exact move_onScreen s h
  | animate =>
    obtain ⟨-, hx, hy, -⟩ := animate_keeps s
    simp only [Foo.step, Foo.onScreen, hx, hy]
    exact h

theorem ctor_onScreen (mem : Foo) : (Foo.ctor mem).onScreen := by
  simp only [Foo.onScreen, Foo.ctor]
  decide

theorem animate_frame_range (s : Foo) (h : 0 ≤ s.frame ∧ s.frame < 24) :
    0 ≤ s.animate.frame ∧ s.animate.frame < 24 := by
  cases hm : s.isMoving with
  | false =>
    rw [animate_resting s hm]
    simp only
    omega
  | true =>
    rw [animate_moving s hm h.1]
    split_ifs
    · simp only
      omega
    · simp only
      omega

theorem step_frame_range (s : Foo) (a : Action) (h : 0 ≤ s.frame ∧ s.frame < 24) :
    0 ≤ (s.step a).frame ∧ (s.step a).frame < 24 := by
  cases a with
  | handleEvent e =>
    simp only [Foo.step, (handleEvent_keeps s e).2.2.1]
    exact h
  | move =>
    simp only [Foo.step, (move_keeps s).2.1]
    exact h
  | animate => exact animate_frame_range s h

theorem step_tick_flip (s : Foo) (a : Action) (h : a.isTick = true) :
    (s.step a).flipType = s.flipType := by
  cases a with
  | handleEvent e => simp [Action.isTick] at h
  | move => exact (move_keeps s).1
  | animate => exact (animate_keeps s).1

theorem run_ticks_flip (s : Foo) (ts : List Action) (h : ∀ a ∈ ts, a.isTick = true) :
    (s.run ts).flipType = s.flipType := by
  induction ts generalizing s with
  | nil => rfl
  | cons a rest ih =>
    have h1 := ih (s.step a) (fun b hb => h b (List.mem_cons_of_mem a hb))
    have h2 := step_tick_flip s a (h a (List.mem_cons_self a rest))
    exact h1.trans h2

/-! ## The position of the foo -/

/-- C1: the constructor puts the foo at x = 288, y = 275 with velocity 0; after any finite
sequence of `handleEvent`, `move` and `animate` calls, with arbitrary events, the position
satisfies `0 ≤ x ≤ 640 - 64` and `0 ≤ y ≤ 480 - 205`; and `move` preserves this predicate
from every state, whatever the velocity. -/
theorem position_invariant (mem : Foo) (acts : List Action) :
    ((Foo.ctor mem).mPosX = 288 ∧ (Foo.ctor mem).mPosY = 275 ∧
      (Foo.ctor mem).mVelX = 0 ∧ (Foo.ctor mem).mVelY = 0) ∧
    (0 ≤ ((Foo.ctor mem).run acts).mPosX ∧ ((Foo.ctor mem).run acts).mPosX ≤ 640 - 64 ∧
      0 ≤ ((Foo.ctor mem).run acts).mPosY ∧ ((Foo.ctor mem).run acts).mPosY ≤ 480 - 205) ∧
    (∀ s : Foo, s.onScreen → s.move.onScreen) := by
  have hx : (Foo.ctor mem).mPosX = 288 := by
    show (SCREEN_WIDTH - FOO_WIDTH).tdiv 2 = 288
    decide
  have hy : (Foo.ctor mem).mPosY = 275 := by
    show SCREEN_HEIGHT - FOO_HEIGHT = 275
    decide
  refine ⟨⟨hx, hy, rfl, rfl⟩, ?_, move_onScreen⟩
  exact run_preserves Foo.onScreen step_onScreen _ (ctor_onScreen mem) acts

/-- C1, at a concrete input: at the left edge with velocity -6 the foo is on the screen,
and it still is after `move`. -/
theorem position_invariant_witness :
    ({ gFoo0 with mPosX := 0, mVelX := -6 } : Foo).onScreen ∧
      ({ gFoo0 with mPosX := 0, mVelX := -6 } : Foo).move.onScreen :=
  ⟨by decide, (position_invariant zeroFoo []).2.2 _ (by decide)⟩

/-- C2: on each axis independently `move` adds the velocity when the sum lies in
`[0, 640 - 64]` (for y: `[0, 480 - 205]`) and leaves the coordinate as it is otherwise; no
field other than the position changes; x = 0 with velocity -6 stays at 0 and x = 3 with
velocity -6 stays at 3. -/
theorem move_boundary_rejection (s : Foo) :
    s.move.mPosX =
        (if 0 ≤ s.mPosX + s.mVelX ∧ s.mPosX + s.mVelX ≤ 640 - 64
         then s.mPosX + s.mVelX else s.mPosX) ∧
    s.move.mPosY =
        (if 0 ≤ s.mPosY + s.mVelY ∧ s.mPosY + s.mVelY ≤ 480 - 205
         then s.mPosY + s.mVelY else s.mPosY) ∧
    s.move = { s with mPosX := s.move.mPosX, mPosY := s.move.mPosY } ∧
    (s.mPosX = 0 → s.mVelX = -6 → s.move.mPosX = 0) ∧
    (s.mPosX = 3 → s.mVelX = -6 → s.move.mPosX = 3) := by
  have hx : s.move.mPosX =
      (if 0 ≤ s.mPosX + s.mVelX ∧ s.mPosX + s.mVelX ≤ 640 - 64
       then s.mPosX + s.mVelX else s.mPosX) := by rw [move_eq]
  have hy : s.move.mPosY =
      (if 0 ≤ s.mPosY + s.mVelY ∧ s.mPosY + s.mVelY ≤ 480 - 205
       then s.mPosY + s.mVelY else s.mPosY) := by rw [move_eq]
  refine ⟨hx, hy, ?_, ?_, ?_⟩
  · rw [hx, hy]
    exact move_eq s
  · intro h0 hv
    rw [hx, h0, hv]
    decide
  · intro h3 hv
    rw [hx, h3, hv]
    decide

/-- C2, at a concrete input: from x = 3 with velocity -6 the foo stays at x = 3. -/
theorem move_boundary_rejection_witness :
    ({ gFoo0 with mPosX := 3, mVelX := -6 } : Foo).move.mPosX = 3 :=
  (move_boundary_rejection _).2.2.2.2 rfl rfl

/-! ## The animation -/

/-- C3 as stated fails at the 24th call: from the freshly constructed foo with the movement
flag set (frame counter 0), the clip selected when the 24th consecutive `animate` call
returns is cell 0, not cell `(24 - 1) / 6 = 3`. -/
theorem twenty_fourth_call_selects_cell_zero :
    walkingFoo.isMoving = true ∧ walkingFoo.frame = 0 ∧
      (Foo.animate^[24] walkingFoo).currentClip = some 0 ∧
      (Foo.animate^[24] walkingFoo).currentClip ≠ some ((24 - 1) / 6) := by
  decide

/-- C3, amended: from a state with the movement flag set and frame counter 0, the flag
stays set under `animate`; for every k in 1..23 the clip selected when the k-th
consecutive call returns is cell `(k - 1) / 6`; the 24th call resets the frame counter to 0
and returns with cell 0 selected; the 25th call selects cell 0.  The cells selected by the
24 calls are therefore 0 six times, 1 six times, 2 six times, 3 five times, then 0. -/
theorem animation_cycle (s : Foo) (hm : s.isMoving = true) (hf : s.frame = 0) :
    (∀ k : Nat, (Foo.animate^[k] s).isMoving = true) ∧
    (∀ k : Nat, 1 ≤ k → k ≤ 23 →
      (Foo.animate^[k] s).currentClip = some ((k - 1) / 6) ∧
        (Foo.animate^[k] s).frame = (k : Int)) ∧
    ((Foo.animate^[24] s).currentClip = some 0 ∧ (Foo.animate^[24] s).frame = 0) ∧
    (Foo.animate^[25] s).currentClip = some 0 ∧
    (List.range 24).map (fun k => (Foo.animate^[k + 1] s).currentClip) =
      List.replicate 6 (some 0) ++ List.replicate 6 (some 1) ++ List.replicate 6 (some 2) ++
        List.replicate 5 (some 3) ++ [some 0] := by
  have hmov : ∀ k : Nat, (Foo.animate^[k] s).isMoving = true := by
    intro k
    induction k with
    | zero => exact hm
    | succ n ih =>
      rw [Function.iterate_succ_apply', (animate_keeps _).2.2.2.1]
      exact ih
  have h23 : ∀ k : Nat, 1 ≤ k → k ≤ 23 →
      (Foo.animate^[k] s).currentClip = some ((k - 1) / 6) ∧
        (Foo.animate^[k] s).frame = (k : Int) := by
    intro k h1 hk
    rw [animate_iterate s hm hf k hk]
    have h0 : k ≠ 0 := by omega
    simp [h0]
  have e24 : Foo.animate^[24] s =
      { (Foo.animate^[23] s) with frame := 0, currentClip := some 0 } := by
    have hfr : (Foo.animate^[23] s).frame = 23 := by
      rw [animate_iterate s hm hf 23 (le_refl _)]
      rfl
    rw [Function.iterate_succ_apply', animate_moving _ (hmov 23) (by rw [hfr]; decide)]
    rw [if_pos (by rw [hfr])]
  have h24 : (Foo.animate^[24] s).currentClip = some 0 ∧ (Foo.animate^[24] s).frame = 0 := by
    rw [e24]
    exact ⟨rfl, rfl⟩
  have h25 : (Foo.animate^[25] s).currentClip = some 0 := by
    rw [Function.iterate_succ_apply', animate_moving _ (hmov 24) (by rw [h24.2])]
    rw [if_neg (by rw [h24.2]; decide), h24.2]
    rfl
  refine ⟨hmov, h23, h24, h25, ?_⟩
  have hall : ∀ k ∈ List.range 24,
      (fun k => (Foo.animate^[k + 1] s).currentClip) k =
        (fun k => if k < 23 then some (k / 6) else some 0) k := by
    intro k hk
    have hk2 : k < 24 := List.mem_range.mp hk
    by_cases h : k < 23
    · simp only [h, if_true]
      exact (h23 (k + 1) (by omega) (by omega)).1
    · have hk3 : k = 23 := by omega
      subst hk3
      simp only [if_false, Nat.lt_irrefl]
      exact h24.1
  rw [List.map_congr_left hall]
  decide

/-- C3 amended, at a concrete input: the 7th call on the walking foo selects cell 1. -/
theorem animation_cycle_witness :
    (Foo.animate^[7] walkingFoo).currentClip = some ((7 - 1) / 6) :=
  ((animation_cycle walkingFoo rfl rfl).2.1 7 (by decide) (by decide)).1

/-- C10: the constructor sets the frame counter to 0, and after any finite sequence of
`handleEvent`, `move` and `animate` calls the frame counter satisfies `0 ≤ frame < 24`, so
the index `frame / 6` lies in `0..3`, the pointer `&spriteClips[frame / 6]` addresses an
element of the array, and so does the clip selected by the next `animate`. -/
theorem clip_index_safe (mem : Foo) (acts : List Action) :
    (Foo.ctor mem).frame = 0 ∧
    (0 ≤ ((Foo.ctor mem).run acts).frame ∧ ((Foo.ctor mem).run acts).frame < 24) ∧
    (0 ≤ ((Foo.ctor mem).run acts).frame.tdiv 6 ∧
      ((Foo.ctor mem).run acts).frame.tdiv 6 < (WALKING_ANIMATION_FRAMES : Int)) ∧
    (spriteClipPtr (((Foo.ctor mem).run acts).frame.tdiv 6)).isSome = true ∧
    (((Foo.ctor mem).run acts).animate.currentClip).isSome = true := by
  have hr : 0 ≤ ((Foo.ctor mem).run acts).frame ∧ ((Foo.ctor mem).run acts).frame < 24 :=
    run_preserves (fun s => 0 ≤ s.frame ∧ s.frame < 24) step_frame_range _
      (by simp only [Foo.ctor]; decide) acts
  generalize (Foo.ctor mem).run acts = s at hr
  have hlt : s.frame.tdiv 6 < (WALKING_ANIMATION_FRAMES : Int) := by
    by_contra hc
    have := (tdiv_six_ge_iff s.frame hr.1).mp (not_lt.mp hc)
    omega
  have hge : 0 ≤ s.frame.tdiv 6 := Int.tdiv_nonneg hr.1 (by decide)
  have hptr : (spriteClipPtr (s.frame.tdiv 6)).isSome = true := by
    unfold spriteClipPtr
    rw [if_pos ⟨hge, hlt⟩]
    rfl
  refine ⟨rfl, hr, ⟨hge, hlt⟩, hptr, ?_⟩
  cases hm : s.isMoving with
  | false =>
    rw [animate_resting s hm]
    rfl
  | true =>
    rw [animate_moving s hm hr.1]
    split_ifs
    · rfl
    · exact hptr

/-! ## Helper lemmas: `LTexture` -/

theorem free_fields (t : LTexture) :
    t.free.1.mTexture = none ∧
      (∀ tex, t.mTexture = some tex →
        t.free.1 = LTexture.ctor ∧ t.free.2 = [SdlCall.SDL_DestroyTexture tex]) ∧
      (t.mTexture = none → t.free = (t, [])) := by
  obtain ⟨tex, w, h⟩ := t
  cases tex with
  | none => simp [LTexture.free]
  | some a => simp [LTexture.free, LTexture.ctor]

theorem free_dimsZeroWhenNull (t : LTexture) (h : t.dimsZeroWhenNull) :
    t.free.1 = LTexture.ctor := by
  obtain ⟨tex, w, ht⟩ := t
  cases tex with
  | none =>
    obtain ⟨hw, hh⟩ := h rfl
    simp only at hw hh
    subst hw hh
    rfl
  | some a => rfl

theorem loadFromFile_fail (t : LTexture) (path : String) (loadedSurface : Option SDL_Surface)
    (created : Option Nat) (hfail : loadedSurface = none ∨ created = none) :
    (t.loadFromFile path loadedSurface created).ok = false ∧
      (t.loadFromFile path loadedSurface created).tex = t.free.1 ∧
      ∃ rest, (t.loadFromFile path loadedSurface created).calls =
        t.free.2 ++ SdlCall.IMG_Load path :: rest := by
  have hnull := (free_fields t).1
  generalize hfree : t.free = p at hnull
  obtain ⟨t0, c0⟩ := p
  obtain ⟨tex0, w0, h0⟩ := t0
  simp only at hnull
  subst hnull
  cases loadedSurface with
  | none =>
    simp [LTexture.loadFromFile, hfree]
  | some surface =>
    cases created with
    | none =>
      simp [LTexture.loadFromFile, hfree]
    | some a => simp at hfail

theorem loadFromFile_ok (t : LTexture) (path : String) (surface : SDL_Surface) (a : Nat) :
    (t.loadFromFile path (some surface) (some a)).ok = true ∧
      (t.loadFromFile path (some surface) (some a)).tex =
        { mTexture := some a, mWidth := surface.w, mHeight := surface.h } := by
  generalize hfree : t.free = p
  obtain ⟨t0, c0⟩ := p
  simp [LTexture.loadFromFile, hfree]

theorem apply_dimsZeroWhenNull (t : LTexture) (op : TexOp) (h : t.dimsZeroWhenNull) :
    (t.apply op).dimsZeroWhenNull := by
  have hctor : LTexture.ctor.dimsZeroWhenNull := fun _ => ⟨rfl, rfl⟩
  cases op with
  | free =>
    simp only [LTexture.apply, free_dimsZeroWhenNull t h]
    exact hctor
  | loadFromFile path loadedSurface created =>
    by_cases hfail : loadedSurface = none ∨ created = none
    · simp only [LTexture.apply, (loadFromFile_fail t path loadedSurface created hfail).2.1,
        free_dimsZeroWhenNull t h]
      exact hctor
    · obtain ⟨surface, rfl⟩ := Option.ne_none_iff_exists'.mp (fun hc => hfail (Or.inl hc))
      obtain ⟨a, rfl⟩ := Option.ne_none_iff_exists'.mp (fun hc => hfail (Or.inr hc))
      simp only [LTexture.apply, (loadFromFile_ok t path surface a).2]
      intro hc
      simp at hc

theorem run_dimsZeroWhenNull (ops : List TexOp) : (LTexture.ctor.run ops).dimsZeroWhenNull := by
  have key : ∀ (t : LTexture), t.dimsZeroWhenNull → (t.run ops).dimsZeroWhenNull := by
    induction ops with
    | nil => exact fun t h => h
    | cons op rest ih => exact fun t h => ih (t.apply op) (apply_dimsZeroWhenNull t op h)
  exact key _ (fun _ => ⟨rfl, rfl⟩)

/-! ## The texture wrapper -/

/-- C8: in every state that a texture reaches from the constructor through loads and
releases, a load whose decoding fails or whose texture creation fails returns false and
leaves a null pointer with `getWidth() = 0` and `getHeight() = 0`; the texture held
before, if any, is destroyed before `IMG_Load` is attempted. -/
theorem load_failure_leaves_empty (ops : List TexOp) (path : String)
    (loadedSurface : Option SDL_Surface) (created : Option Nat)
    (hfail : loadedSurface = none ∨ created = none) :
    ((LTexture.ctor.run ops).loadFromFile path loadedSurface created).ok = false ∧
    ((LTexture.ctor.run ops).loadFromFile path loadedSurface created).tex.mTexture = none ∧
    ((LTexture.ctor.run ops).loadFromFile path loadedSurface created).tex.getWidth = 0 ∧
    ((LTexture.ctor.run ops).loadFromFile path loadedSurface created).tex.getHeight = 0 ∧
    (∀ held, (LTexture.ctor.run ops).mTexture = some held →
      ∃ rest, ((LTexture.ctor.run ops).loadFromFile path loadedSurface created).calls =
        SdlCall.SDL_DestroyTexture held :: SdlCall.IMG_Load path :: rest) := by
  have hwf := run_dimsZeroWhenNull ops
  generalize LTexture.ctor.run ops = t at hwf
  obtain ⟨hok, htex, rest, hcalls⟩ := loadFromFile_fail t path loadedSurface created hfail
  have hempty := free_dimsZeroWhenNull t hwf
  rw [htex, hempty]
  refine ⟨hok, rfl, rfl, rfl, ?_⟩
  intro held hheld
  refine ⟨rest, ?_⟩
  rw [hcalls, ((free_fields t).2.1 held hheld).2]
  rfl

/-- C8, at a concrete input: a texture holding handle 7 (64 by 205) is asked to load a
file that does not decode. -/
theorem load_failure_leaves_empty_witness :
    ((LTexture.ctor.run [TexOp.loadFromFile "foo.png" (some ⟨64, 205⟩) (some 7)]).loadFromFile
        "missing.png" none none).ok = false ∧
    ((LTexture.ctor.run [TexOp.loadFromFile "foo.png" (some ⟨64, 205⟩) (some 7)]).loadFromFile
        "missing.png" none none).tex.getWidth = 0 :=
  ⟨(load_failure_leaves_empty [TexOp.loadFromFile "foo.png" (some ⟨64, 205⟩) (some 7)]
      "missing.png" none none (Or.inl rfl)).1,
   (load_failure_leaves_empty [TexOp.loadFromFile "foo.png" (some ⟨64, 205⟩) (some 7)]
      "missing.png" none none (Or.inl rfl)).2.2.1⟩

/-- C9: in every state that a texture reaches from the constructor through loads and
releases, `free` yields the empty state (null pointer, width 0, height 0), and a second
`free` leaves that state unchanged and destroys nothing. -/
theorem release_idempotent (ops : List TexOp) :
    (LTexture.ctor.run ops).free.1 = LTexture.ctor ∧
    LTexture.ctor = { mTexture := none, mWidth := 0, mHeight := 0 } ∧
    (LTexture.ctor.run ops).free.1.free.1 = (LTexture.ctor.run ops).free.1 ∧
    (LTexture.ctor.run ops).free.1.free.2 = [] := by
  have hempty := free_dimsZeroWhenNull _ (run_dimsZeroWhenNull ops)
  rw [hempty]
  exact ⟨rfl, rfl, rfl, rfl⟩

/-! ## The sprite sheet -/

/-- C4 (the code departs from the claim): after a successful `loadMedia` the clips 0, 1
and 2 are the cells at x = 0, 64, 128, each 64 by 205, but clip 3 starts at x = 196, not
at `64 * 3 = 192`: clip 2 ends at 192 and a gap of 4 pixels precedes clip 3. -/
theorem loadMedia_fourth_clip (g : Globals) (surface : SDL_Surface) (created : Nat) :
    (loadMedia g (some surface) (some created)).1 = true ∧
    (loadMedia g (some surface) (some created)).2.gFoo.spriteClips 0 =
      { x := 0, y := 0, w := 64, h := 205 } ∧
    (loadMedia g (some surface) (some created)).2.gFoo.spriteClips 1 =
      { x := 64, y := 0, w := 64, h := 205 } ∧
    (loadMedia g (some surface) (some created)).2.gFoo.spriteClips 2 =
      { x := 128, y := 0, w := 64, h := 205 } ∧
    (loadMedia g (some surface) (some created)).2.gFoo.spriteClips 3 =
      { x := 196, y := 0, w := 64, h := 205 } ∧
    ((loadMedia g (some surface) (some created)).2.gFoo.spriteClips 3).x ≠ 64 * 3 ∧
    ((loadMedia g (some surface) (some created)).2.gFoo.spriteClips 2).x +
        ((loadMedia g (some surface) (some created)).2.gFoo.spriteClips 2).w ≠
      ((loadMedia g (some surface) (some created)).2.gFoo.spriteClips 3).x := by
  have hok := (loadFromFile_ok g.gFooTexture "foo.png" surface created).1
  simp [loadMedia, hok, Foo.setClip, Function.update]

/-! ## Key events -/

/-- C5: a non-repeat key press of the left arrow subtracts 6 from the x velocity, sets the
movement flag and clears the flip; of the right arrow it adds 6, sets the movement flag
and sets the horizontal flip; position, y velocity and frame counter (and every other
field) stay as they are.  A key press with the repeat flag set, and a key press of any
other key, leaves the whole state unchanged. -/
theorem handleEvent_keydown (s : Foo) (e : SDL_Event) (hdown : e.type = SDL_KEYDOWN) :
    (e.keyRepeat = 0 → e.keySym = SDLK_LEFT →
      s.handleEvent e =
        { s with mVelX := s.mVelX - 6, isMoving := true, flipType := SDL_FLIP_NONE }) ∧
    (e.keyRepeat = 0 → e.keySym = SDLK_RIGHT →
      s.handleEvent e =
        { s with mVelX := s.mVelX + 6, isMoving := true, flipType := SDL_FLIP_HORIZONTAL }) ∧
    (e.keyRepeat ≠ 0 → s.handleEvent e = s) ∧
    (e.keySym ≠ SDLK_LEFT → e.keySym ≠ SDLK_RIGHT → s.handleEvent e = s) := by
  have hnup : ¬ (e.type = SDL_KEYUP ∧ e.keyRepeat = 0) := by
    rintro ⟨h, -⟩
    exact keydown_ne_keyup (hdown.symm.trans h)
  refine ⟨?_, ?_, ?_, ?_⟩
  · intro hrep hsym
    unfold Foo.handleEvent
    rw [if_pos ⟨hdown, hrep⟩, if_pos hsym]
    rfl
  · intro hrep hsym
    have hnl : ¬ e.keySym = SDLK_LEFT := by
      rw [hsym]
      exact fun h => left_ne_right h.symm
    unfold Foo.handleEvent
    rw [if_pos ⟨hdown, hrep⟩, if_neg hnl, if_pos hsym]
    rfl
  · intro hrep
    have hnd : ¬ (e.type = SDL_KEYDOWN ∧ e.keyRepeat = 0) := fun h => hrep h.2
    unfold Foo.handleEvent
    rw [if_neg hnd, if_neg hnup]
  · intro hl hr
    unfold Foo.handleEvent
    rw [if_neg hnup]
    split_ifs <;> rfl

/-- C5, at concrete inputs: the four kinds of key press applied to the freshly constructed
foo. -/
theorem handleEvent_keydown_witness :
    gFoo0.handleEvent (keyDown SDLK_LEFT) =
        { gFoo0 with mVelX := gFoo0.mVelX - 6, isMoving := true, flipType := SDL_FLIP_NONE } ∧
    gFoo0.handleEvent (keyDown SDLK_RIGHT) =
        { gFoo0 with mVelX := gFoo0.mVelX + 6, isMoving := true,
                     flipType := SDL_FLIP_HORIZONTAL } ∧
    gFoo0.handleEvent { type := SDL_KEYDOWN, keyRepeat := 1, keySym := SDLK_LEFT } = gFoo0 ∧
    gFoo0.handleEvent (keyDown 32) = gFoo0 :=
  ⟨(handleEvent_keydown gFoo0 (keyDown SDLK_LEFT) rfl).1 rfl rfl,
   (handleEvent_keydown gFoo0 (keyDown SDLK_RIGHT) rfl).2.1 rfl rfl,
   (handleEvent_keydown gFoo0 { type := SDL_KEYDOWN, keyRepeat := 1, keySym := SDLK_LEFT }
      rfl).2.2.1 (by decide),
   (handleEvent_keydown gFoo0 (keyDown 32) rfl).2.2.2 (by decide) (by decide)⟩

/-- C6: a non-repeat key release of the left or right arrow clears the movement flag,
whatever the state (whatever the velocity, whichever keys are still held); from the
constructed foo, press left, press right, release left ends with the movement flag
cleared, and the next `animate` leaves the frame counter at 0 and selects cell 0. -/
theorem keyup_clears_moving (s : Foo) (e : SDL_Event) (mem : Foo)
    (hup : e.type = SDL_KEYUP) (hrep : e.keyRepeat = 0)
    (hkey : e.keySym = SDLK_LEFT ∨ e.keySym = SDLK_RIGHT) :
    (s.handleEvent e).isMoving = false ∧
    ((Foo.ctor mem).run [Action.handleEvent (keyDown SDLK_LEFT),
        Action.handleEvent (keyDown SDLK_RIGHT),
        Action.handleEvent (keyUp SDLK_LEFT)]).isMoving = false ∧
    ((Foo.ctor mem).run [Action.handleEvent (keyDown SDLK_LEFT),
        Action.handleEvent (keyDown SDLK_RIGHT),
        Action.handleEvent (keyUp SDLK_LEFT)]).animate.frame = 0 ∧
    ((Foo.ctor mem).run [Action.handleEvent (keyDown SDLK_LEFT),
        Action.handleEvent (keyDown SDLK_RIGHT),
        Action.handleEvent (keyUp SDLK_LEFT)]).animate.currentClip = some 0 := by
  have hgen : ∀ (s : Foo) (e : SDL_Event), e.type = SDL_KEYUP → e.keyRepeat = 0 →
      (e.keySym = SDLK_LEFT ∨ e.keySym = SDLK_RIGHT) → (s.handleEvent e).isMoving = false := by
    intro s e hup hrep hkey
    have hnd : ¬ (e.type = SDL_KEYDOWN ∧ e.keyRepeat = 0) := by
      rintro ⟨h, -⟩
      exact keydown_ne_keyup (h.symm.trans hup)
    unfold Foo.handleEvent
    rw [if_neg hnd, if_pos ⟨hup, hrep⟩]
    rcases hkey with hl | hr
    · rw [if_pos hl]
    · have hnl : ¬ e.keySym = SDLK_LEFT := by
        rw [hr]
        exact fun h => left_ne_right h.symm
      rw [if_neg hnl, if_pos hr]
  have hseq : ((Foo.ctor mem).run [Action.handleEvent (keyDown SDLK_LEFT),
      Action.handleEvent (keyDown SDLK_RIGHT),
      Action.handleEvent (keyUp SDLK_LEFT)]).isMoving = false :=
    hgen _ (keyUp SDLK_LEFT) rfl rfl (Or.inl rfl)
  refine ⟨hgen s e hup hrep hkey, hseq, ?_, ?_⟩
  · rw [animate_resting _ hseq]
  · rw [animate_resting _ hseq]

/-- C6, at a concrete input: with both arrows held on the constructed foo (velocity 0,
movement flag set), releasing the left arrow clears the movement flag. -/
theorem keyup_clears_moving_witness :
    (((gFoo0.handleEvent (keyDown SDLK_LEFT)).handleEvent (keyDown SDLK_RIGHT)).handleEvent
        (keyUp SDLK_LEFT)).isMoving = false :=
  (keyup_clears_moving ((gFoo0.handleEvent (keyDown SDLK_LEFT)).handleEvent (keyDown SDLK_RIGHT))
    (keyUp SDLK_LEFT) zeroFoo rfl rfl (Or.inl rfl)).1

/-- C7: a key release leaves the flip as it is, and so do `move` and `animate`; hence after
a non-repeat press of the right arrow, any number of `move` and `animate` steps, a release
of the right arrow (of any key, in fact) and any further number of `move` and `animate` steps, the flip is
still horizontal. -/
theorem orientation_persists (s : Foo) (down up : SDL_Event) (before after : List Action)
    (hdown : down.type = SDL_KEYDOWN) (hrep : down.keyRepeat = 0)
    (hright : down.keySym = SDLK_RIGHT)
    (hup : up.type = SDL_KEYUP)
    (hbefore : ∀ a ∈ before, a.isTick = true) (hafter : ∀ a ∈ after, a.isTick = true) :
    (∀ (t : Foo) (e : SDL_Event), e.type = SDL_KEYUP → (t.handleEvent e).flipType = t.flipType) ∧
    (∀ t : Foo, t.move.flipType = t.flipType) ∧
    (∀ t : Foo, t.animate.flipType = t.flipType) ∧
    ((((s.handleEvent down).run before).handleEvent up).run after).flipType =
      SDL_FLIP_HORIZONTAL := by
  refine ⟨handleEvent_keyup_flip, fun t => (move_keeps t).1, fun t => (animate_keeps t).1, ?_⟩
  have hnl : ¬ down.keySym = SDLK_LEFT := by
    rw [hright]
    exact fun h => left_ne_right h.symm
  have h1 : (s.handleEvent down).flipType = SDL_FLIP_HORIZONTAL := by
    unfold Foo.handleEvent
    rw [if_pos ⟨hdown, hrep⟩, if_neg hnl, if_pos hright]
  rw [run_ticks_flip _ after hafter, handleEvent_keyup_flip _ up hup,
    run_ticks_flip _ before hbefore, h1]

/-- C7, at a concrete input: press right, one frame, release right, one frame, starting
from the constructed foo. -/
theorem orientation_persists_witness :
    ((((gFoo0.handleEvent (keyDown SDLK_RIGHT)).run [Action.move, Action.animate]).handleEvent
        (keyUp SDLK_RIGHT)).run [Action.move, Action.animate]).flipType =
      SDL_FLIP_HORIZONTAL :=
  (orientation_persists gFoo0 (keyDown SDLK_RIGHT) (keyUp SDLK_RIGHT)
    [Action.move, Action.animate] [Action.move, Action.animate] rfl rfl rfl rfl
    (by decide) (by decide)).2.2.2

end StickFigure
